import Mathlib

/-!
Verification of the TimePlanner attendance/reporting core.

The definitions below are shallow embeddings of the TypeScript source:
  * `convertCurrency`       — src/src/utils/currency.ts
  * `calculateSalaryDeduction` — src/src/utils/salary.ts
  * `countWeekdays`, `getSmartMonthlyAttendanceReport`,
    `getSmartYearlyAttendanceReport`, `getMonthTotal`
                            — src/electron/database/queries.ts
  * `salaryTotals`, `incomeForPeriod`, `netAmount`
                            — src/src/components/ReportSummary.tsx

Monetary amounts and rates are rationals; a JavaScript number that may be
NaN or infinite is modelled by `JSNum`.  Calendar dates are day numbers
counted from 1970-01-01 (a Thursday), so `getDay` mirrors
`Date.prototype.getDay`.
-/

/-- The three supported currencies (`Currency` in src/src/types). -/
inductive Currency
  | USD
  | IDR
  | SEK
  deriving DecidableEq, Repr

/-- A directional currency rate row (`CurrencyRate` in src/src/types);
only the fields `convertCurrency` reads are modelled. -/
structure CurrencyRate where
  from_curr : Currency
  to_curr : Currency
  rate : ℚ
  deriving DecidableEq, Repr

/-- A JavaScript number: NaN, the two infinities, or a finite value. -/
inductive JSNum
  | nan
  | posInf
  | negInf
  | fin (q : ℚ)
  deriving DecidableEq, Repr

/-- `isNaN` on a JavaScript number: true exactly for NaN. -/
def JSNum.isNaN : JSNum → Bool
  | .nan => true
  | _ => false

/-- Multiplication of a JavaScript number by a finite rate, with the IEEE
rules for NaN and infinities (`inf * 0` is NaN). -/
def JSNum.mulRate : JSNum → ℚ → JSNum
  | .nan, _ => .nan
  | .posInf, r => if 0 < r then .posInf else if r < 0 then .negInf else .nan
  | .negInf, r => if 0 < r then .negInf else if r < 0 then .posInf else .nan
  | .fin q, r => .fin (q * r)

/-- The finite value of a JavaScript number (0 for NaN/infinite). -/
def JSNum.finValue : JSNum → ℚ
  | .fin q => q
  | _ => 0

/-- `convertCurrency(amount, from, to, rates)` from src/src/utils/currency.ts:
identity when the currencies agree, the amount unchanged when the rate list
is empty, 0 when the amount is NaN, otherwise the first direct rate, else a
two-hop conversion through USD, else the amount unconverted. -/
def convertCurrency (amount : JSNum) (src dst : Currency)
    (rates : List CurrencyRate) : JSNum :=
  if src = dst then amount
  else if rates.isEmpty then amount
  else if amount.isNaN then .fin 0
  else
    match rates.find? (fun r => decide (r.from_curr = src ∧ r.to_curr = dst)) with
    | some r => amount.mulRate r.rate
    | none =>
      match rates.find? (fun r => decide (r.from_curr = src ∧ r.to_curr = Currency.USD)),
            rates.find? (fun r => decide (r.from_curr = Currency.USD ∧ r.to_curr = dst)) with
      | some fromToUsd, some usdToTarget =>
        (amount.mulRate fromToUsd.rate).mulRate usdToTarget.rate
      | _, _ => amount

/-- `convertCurrency` applied to a finite amount, as a rational: every code
path of the source returns a finite number when the amount is finite, so
components that feed finite amounts are embedded through this wrapper. -/
def convertCurrencyQ (amount : ℚ) (src dst : Currency)
    (rates : List CurrencyRate) : ℚ :=
  (convertCurrency (.fin amount) src dst rates).finValue

/-- A derived attendance report (`SmartAttendanceReport` in src/src/types). -/
structure SmartAttendanceReport where
  workdays : ℤ
  worked : ℤ
  sick : ℤ
  vacation : ℤ
  deriving DecidableEq, Repr

/-- The result record of `calculateSalaryDeduction` (src/src/utils/salary.ts). -/
structure SalaryDeductionResult where
  baseSalary : ℚ
  adjustedSalary : ℚ
  deductionAmount : ℚ
  sickDays : ℤ
  workdays : ℤ
  deriving DecidableEq, Repr

/-- `calculateSalaryDeduction(baseSalary, report)` from src/src/utils/salary.ts:
if `report.workdays == 0` the salary is returned unchanged with no deduction,
otherwise the salary is scaled by `(workdays - sick) / workdays`. -/
def calculateSalaryDeduction (baseSalary : ℚ)
    (report : SmartAttendanceReport) : SalaryDeductionResult :=
  if report.workdays = 0 then
    { baseSalary := baseSalary
      adjustedSalary := baseSalary
      deductionAmount := 0
      sickDays := report.sick
      workdays := report.workdays }
  else
    let adjustedSalary := baseSalary * ((report.workdays - report.sick : ℚ) / (report.workdays : ℚ))
    { baseSalary := baseSalary
      adjustedSalary := adjustedSalary
      deductionAmount := baseSalary - adjustedSalary
      sickDays := report.sick
      workdays := report.workdays }

/-- Gregorian leap-year rule, as implemented by the JavaScript `Date`. -/
def isLeapYear (y : ℕ) : Bool :=
  y % 4 = 0 && (y % 100 ≠ 0 || y % 400 = 0)

/-- Number of days of year `y`. -/
def yearLength (y : ℕ) : ℕ :=
  if isLeapYear y then 366 else 365

/-- The lengths of the twelve months of year `y`. -/
def monthLengths (y : ℕ) : List ℕ :=
  [31, if isLeapYear y then 29 else 28, 31, 30, 31, 30, 31, 31, 30, 31, 30, 31]

/-- Days from 1970-01-01 to the first day of year `y` (for `y ≥ 1970`,
the application's domain). -/
def daysBeforeYear (y : ℕ) : ℕ :=
  ((List.range (y - 1970)).map (fun i => yearLength (1970 + i))).sum

/-- Days from the first day of year `y` to the first day of its month `m`
(months are 1-based). -/
def daysBeforeMonth (y m : ℕ) : ℕ :=
  ((monthLengths y).take (m - 1)).sum

/-- The day number (days since 1970-01-01) of the civil date `y-m-d`. -/
def dayNumber (y m d : ℕ) : ℕ :=
  daysBeforeYear y + daysBeforeMonth y m + (d - 1)

/-- Day number of `new Date(year, month - 1, 1)`: the first day of the month. -/
def monthStartDay (y m : ℕ) : ℕ :=
  dayNumber y m 1

/-- Day number of `new Date(year, month, 0)`: the last day of the month. -/
def monthEndDay (y m : ℕ) : ℕ :=
  monthStartDay y m + (monthLengths y).getD (m - 1) 0 - 1

/-- Day number of `new Date(year, 0, 1)`: January 1st. -/
def yearStartDay (y : ℕ) : ℕ :=
  dayNumber y 1 1

/-- Day number of `new Date(year, 11, 31)`: December 31st. -/
def yearEndDay (y : ℕ) : ℕ :=
  dayNumber y 12 31

/-- `Date.prototype.getDay` on day number `n`: 0 = Sunday … 6 = Saturday.
1970-01-01 (day 0) was a Thursday, so `getDay 0 = 4`. -/
def getDay (n : ℕ) : ℕ :=
  (n + 4) % 7

/-- The ISO weekday of day number `n`: 1 = Monday … 7 = Sunday. -/
def isoWeekday (n : ℕ) : ℕ :=
  (n + 3) % 7 + 1

/-- `countWeekdays(startDate, endDate)` from src/electron/database/queries.ts:
walks the days from `s` to `e` inclusive and counts those whose `getDay`
is neither 0 (Sunday) nor 6 (Saturday). -/
def countWeekdays (s e : ℕ) : ℕ :=
  (List.range (e + 1 - s)).countP (fun i => decide (getDay (s + i) ≠ 0 ∧ getDay (s + i) ≠ 6))

/-- An attendance status (`AttendanceStatus` in src/src/types). -/
inductive AttendanceStatus
  | worked
  | sick
  | vacation
  deriving DecidableEq, Repr

/-- A civil date `y-m-d`, the shape of the stored `date` string. -/
structure CivilDate where
  year : ℕ
  month : ℕ
  day : ℕ
  deriving DecidableEq, Repr

/-- A stored attendance row (`Attendance` in src/src/types); only the
fields the smart reports read are modelled. -/
structure AttendanceRecord where
  employee_id : ℕ
  date : CivilDate
  status : AttendanceStatus
  deriving DecidableEq, Repr

/-- The rows the monthly report's Supabase query returns: the employee's
rows whose date falls in month `(y, m)` (the `LIKE 'YYYY-MM%'` filter) with
status sick or vacation. -/
def monthlyQueryRows (attendance : List AttendanceRecord) (eid y m : ℕ) :
    List AttendanceRecord :=
  attendance.filter (fun r => decide (r.employee_id = eid ∧ r.date.year = y ∧
    r.date.month = m ∧ (r.status = .sick ∨ r.status = .vacation)))

/-- The rows the yearly report's Supabase query returns: the employee's
rows whose date falls in year `y` (the `LIKE 'YYYY%'` filter) with status
sick or vacation. -/
def yearlyQueryRows (attendance : List AttendanceRecord) (eid y : ℕ) :
    List AttendanceRecord :=
  attendance.filter (fun r => decide (r.employee_id = eid ∧ r.date.year = y ∧
    (r.status = .sick ∨ r.status = .vacation)))

/-- `getSmartMonthlyAttendanceReport(employeeId, year, month)` from
src/electron/database/queries.ts, with "today" (at day granularity; the
source sets it to 23:59:59.999, so date comparisons reduce to day-number
comparisons) and the attendance table passed explicitly.  Returns zeros
when the month starts after today; otherwise counts weekdays up to the
clipped end and clamps `worked` at 0. -/
def getSmartMonthlyAttendanceReport (eid y m today : ℕ)
    (attendance : List AttendanceRecord) : SmartAttendanceReport :=
  let startDate := monthStartDay y m
  let endDate := monthEndDay y m
  let effectiveEndDate := min endDate today
  if today < startDate then
    { workdays := 0, worked := 0, sick := 0, vacation := 0 }
  else
    let workdays := countWeekdays startDate effectiveEndDate
    let records := monthlyQueryRows attendance eid y m
    let sick := records.countP (fun r => decide (r.status = .sick))
    let vacation := records.countP (fun r => decide (r.status = .vacation))
    { workdays := workdays
      worked := max 0 ((workdays : ℤ) - sick - vacation)
      sick := sick
      vacation := vacation }

/-- `getSmartYearlyAttendanceReport(employeeId, year)` from
src/electron/database/queries.ts, embedded like the monthly variant with
the period running from January 1st to December 31st. -/
def getSmartYearlyAttendanceReport (eid y today : ℕ)
    (attendance : List AttendanceRecord) : SmartAttendanceReport :=
  let startDate := yearStartDay y
  let endDate := yearEndDay y
  let effectiveEndDate := min endDate today
  if today < startDate then
    { workdays := 0, worked := 0, sick := 0, vacation := 0 }
  else
    let workdays := countWeekdays startDate effectiveEndDate
    let records := yearlyQueryRows attendance eid y
    let sick := records.countP (fun r => decide (r.status = .sick))
    let vacation := records.countP (fun r => decide (r.status = .vacation))
    { workdays := workdays
      worked := max 0 ((workdays : ℤ) - sick - vacation)
      sick := sick
      vacation := vacation }

/-- A cost row (`Cost` in src/src/types); only the fields `getMonthTotal`
reads are modelled. -/
structure Cost where
  year : ℕ
  month : ℕ
  amount : ℚ
  currency : Currency
  is_recurring : Bool
  is_active : Bool
  deriving DecidableEq, Repr

/-- The loop body of `getMonthTotal` (src/electron/database/queries.ts):
adds the converted amount of a recurring cost that is active and started
no later than the target month, or of a one-time cost dated exactly the
target month. -/
def getMonthTotalStep (displayCurrency : Currency) (rates : List CurrencyRate)
    (targetYear targetMonth : ℕ) (total : ℚ) (cost : Cost) : ℚ :=
  let costDate := cost.year * 12 + cost.month
  let targetDate := targetYear * 12 + targetMonth
  if cost.is_recurring then
    if cost.is_active ∧ costDate ≤ targetDate then
      total + convertCurrencyQ cost.amount cost.currency displayCurrency rates
    else total
  else
    if cost.year = targetYear ∧ cost.month = targetMonth then
      total + convertCurrencyQ cost.amount cost.currency displayCurrency rates
    else total

/-- `getMonthTotal(targetYear, targetMonth)` from
src/electron/database/queries.ts: folds `getMonthTotalStep` over the cost
list starting from 0. -/
def getMonthTotal (costs : List Cost) (displayCurrency : Currency)
    (rates : List CurrencyRate) (targetYear targetMonth : ℕ) : ℚ :=
  costs.foldl (getMonthTotalStep displayCurrency rates targetYear targetMonth) 0

/-- An employee row (`Employee` in src/src/types); only the fields the
report summary reads are modelled. -/
structure Employee where
  id : ℕ
  salary : ℚ
  currency : Currency
  deriving DecidableEq, Repr

/-- A consultant contract row; only the fields `incomeForPeriod` reads. -/
structure ConsultantContract where
  monthly_fee : ℚ
  currency : Currency
  is_active : Bool
  deriving DecidableEq, Repr

/-- An ad-revenue row; only the fields `incomeForPeriod` reads. -/
structure AdRevenue where
  year : ℕ
  month : ℕ
  amount : ℚ
  currency : Currency
  deriving DecidableEq, Repr

/-- An IAP-revenue row; only the fields `incomeForPeriod` reads. -/
structure IapRevenue where
  year : ℕ
  month : ℕ
  amount : ℚ
  currency : Currency
  deriving DecidableEq, Repr

/-- The income totals computed by the `incomeForPeriod` memo in
src/src/components/ReportSummary.tsx. -/
structure IncomeForPeriod where
  consultant : ℚ
  ads : ℚ
  iap : ℚ
  total : ℚ
  deriving DecidableEq, Repr

/-- The `incomeForPeriod` memo of src/src/components/ReportSummary.tsx:
active contracts' converted monthly fees, the converted ad-revenue entry
matching the selected month if any, and the converted IAP entries matching
the selected month summed. -/
def incomeForPeriod (contracts : List ConsultantContract)
    (adRevenue : List AdRevenue) (iapRevenue : List IapRevenue)
    (selectedYear selectedMonth : ℕ) (displayCurrency : Currency)
    (rates : List CurrencyRate) : IncomeForPeriod :=
  let consultantTotal :=
    ((contracts.filter (fun c => c.is_active)).map
      (fun c => convertCurrencyQ c.monthly_fee c.currency displayCurrency rates)).sum
  let adTotal :=
    match adRevenue.find? (fun r => decide (r.year = selectedYear ∧ r.month = selectedMonth)) with
    | some adEntry => convertCurrencyQ adEntry.amount adEntry.currency displayCurrency rates
    | none => 0
  let iapTotal :=
    ((iapRevenue.filter (fun r => decide (r.year = selectedYear ∧ r.month = selectedMonth))).map
      (fun r => convertCurrencyQ r.amount r.currency displayCurrency rates)).sum
  { consultant := consultantTotal
    ads := adTotal
    iap := iapTotal
    total := consultantTotal + adTotal + iapTotal }

/-- The salary totals computed by the `salaryTotals` memo in
src/src/components/ReportSummary.tsx. -/
structure SalaryTotals where
  totalBase : ℚ
  totalAdjusted : ℚ
  totalSickDays : ℤ
  totalDeduction : ℚ
  deriving DecidableEq, Repr

/-- The per-employee accumulation step of the `salaryTotals` memo: the
employee's salary converted to the display currency, then the salary
deduction computed from the employee's report for the period, or the full
converted base salary when no report is available. -/
def salaryTotalsStep (displayCurrency : Currency) (rates : List CurrencyRate)
    (reports : ℕ → Option SmartAttendanceReport)
    (acc : ℚ × ℚ × ℤ) (employee : Employee) : ℚ × ℚ × ℤ :=
  let convertedSalary := convertCurrencyQ employee.salary employee.currency displayCurrency rates
  let deduction :=
    match reports employee.id with
    | some report => calculateSalaryDeduction convertedSalary report
    | none =>
      { baseSalary := convertedSalary
        adjustedSalary := convertedSalary
        deductionAmount := 0
        sickDays := 0
        workdays := 0 }
  (acc.1 + convertedSalary, acc.2.1 + deduction.adjustedSalary, acc.2.2 + deduction.sickDays)

/-- The `salaryTotals` memo of src/src/components/ReportSummary.tsx:
zeros when a single employee is selected; otherwise the base salaries,
adjusted salaries and sick days accumulated over all employees, and the
total deduction as their difference.  The `allEmployeeReports` map is
modelled as a partial lookup from employee id to report. -/
def salaryTotals (selectedEmployee : Option Employee)
    (validEmployees : List Employee)
    (reports : ℕ → Option SmartAttendanceReport)
    (displayCurrency : Currency) (rates : List CurrencyRate) : SalaryTotals :=
  match selectedEmployee with
  | some _ => { totalBase := 0, totalAdjusted := 0, totalSickDays := 0, totalDeduction := 0 }
  | none =>
    let acc := validEmployees.foldl (salaryTotalsStep displayCurrency rates reports) (0, 0, 0)
    { totalBase := acc.1
      totalAdjusted := acc.2.1
      totalSickDays := acc.2.2
      totalDeduction := acc.1 - acc.2.1 }

/-- `netAmount` from src/src/components/ReportSummary.tsx line 531:
the period's total income minus the total adjusted salaries. -/
def netAmount (selectedEmployee : Option Employee)
    (validEmployees : List Employee)
    (reports : ℕ → Option SmartAttendanceReport)
    (contracts : List ConsultantContract) (adRevenue : List AdRevenue)
    (iapRevenue : List IapRevenue) (selectedYear selectedMonth : ℕ)
    (displayCurrency : Currency) (rates : List CurrencyRate) : ℚ :=
  (incomeForPeriod contracts adRevenue iapRevenue selectedYear selectedMonth
      displayCurrency rates).total -
    (salaryTotals selectedEmployee validEmployees reports displayCurrency rates).totalAdjusted

/-- Spec-side count: the number of stored records of employee `eid` whose
date lies in month `(y, m)` with status `st`. -/
def monthlyStatusCount (attendance : List AttendanceRecord) (eid y m : ℕ)
    (st : AttendanceStatus) : ℕ :=
  (attendance.filter (fun r => decide (r.employee_id = eid ∧ r.date.year = y ∧
    r.date.month = m ∧ r.status = st))).length

/-- Spec-side count: the number of stored records of employee `eid` whose
date lies in year `y` with status `st`. -/
def yearlyStatusCount (attendance : List AttendanceRecord) (eid y : ℕ)
    (st : AttendanceStatus) : ℕ :=
  (attendance.filter (fun r => decide (r.employee_id = eid ∧ r.date.year = y ∧
    r.status = st))).length

/-- Spec-side inclusion predicate for C6: a one-time cost is included
exactly when its (year, month) equals the target; a recurring cost exactly
when it is active and its start month is no later than the target month. -/
def costIncludedInMonth (targetYear targetMonth : ℕ) (cost : Cost) : Prop :=
  if cost.is_recurring then
    cost.is_active = true ∧ cost.year * 12 + cost.month ≤ targetYear * 12 + targetMonth
  else
    cost.year = targetYear ∧ cost.month = targetMonth

instance (targetYear targetMonth : ℕ) (cost : Cost) :
    Decidable (costIncludedInMonth targetYear targetMonth cost) := by
  unfold costIncludedInMonth
  infer_instance

/-- A day counted by the loop body of `countWeekdays` (`getDay` neither 0
nor 6) is exactly a day whose ISO weekday is Monday through Friday. -/
theorem weekday_loop_iff_iso (n : ℕ) :
    (getDay n ≠ 0 ∧ getDay n ≠ 6) ↔ (1 ≤ isoWeekday n ∧ isoWeekday n ≤ 5) := by
  unfold getDay isoWeekday
  omega

/-- Unfolding `countWeekdays` one day at the top end of the range. -/
theorem countWeekdays_succ (s e : ℕ) (h : s ≤ e + 1) :
    countWeekdays s (e + 1) =
      countWeekdays s e +
        (if getDay (e + 1) ≠ 0 ∧ getDay (e + 1) ≠ 6 then 1 else 0) := by
  unfold countWeekdays
  have h1 : e + 1 + 1 - s = (e + 1 - s) + 1 := by omega
  rw [h1, List.range_succ, List.countP_append]
  have h2 : s + (e + 1 - s) = e + 1 := by omega
  rw [List.countP_cons, List.countP_nil, h2]
  by_cases hw : getDay (e + 1) ≠ 0 ∧ getDay (e + 1) ≠ 6 <;> simp [hw]

/-- C3: for start ≤ end, `countWeekdays` counts exactly the dates in the
inclusive range whose ISO weekday is Monday through Friday (1–5);
Saturdays and Sundays are never counted. -/
theorem countWeekdays_counts_iso_weekdays (s e : ℕ) (h : s ≤ e) :
    countWeekdays s e =
      ((Finset.Icc s e).filter
        (fun d => 1 ≤ isoWeekday d ∧ isoWeekday d ≤ 5)).card := by
  induction e, h using Nat.le_induction with
  | base =>
    have hr : s + 1 - s = 1 := by omega
    unfold countWeekdays
    rw [hr, (by rfl : List.range 1 = [0]), List.countP_cons, List.countP_nil]
    have hIcc : Finset.Icc s s = {s} := Finset.Icc_self s
    rw [hIcc, Finset.filter_singleton]
    by_cases hw : getDay (s + 0) ≠ 0 ∧ getDay (s + 0) ≠ 6
    · have hiso := (weekday_loop_iff_iso (s + 0)).mp hw
      simp only [Nat.add_zero] at hiso
      rw [if_pos hiso]
      simp only [Nat.add_zero] at hw
      simp [hw]
    · have hiso : ¬(1 ≤ isoWeekday s ∧ isoWeekday s ≤ 5) := by
        intro hc
        exact hw (by simpa using (weekday_loop_iff_iso (s + 0)).mpr (by simpa using hc))
      rw [if_neg hiso]
      simp only [Nat.add_zero] at hw
      simp only [Finset.card_empty]
      simp at hw ⊢
      tauto
  | succ n hn ih =>
    rw [countWeekdays_succ s n (by omega), ih]
    rw [← Nat.Icc_insert_succ_right (by omega : s ≤ n + 1)]
    rw [Finset.filter_insert]
    have hnot : (n + 1) ∉ Finset.filter
        (fun d => 1 ≤ isoWeekday d ∧ isoWeekday d ≤ 5) (Finset.Icc s n) := by
      intro hc
      have := Finset.mem_Icc.mp (Finset.mem_of_mem_filter _ hc)
      omega
    by_cases hw : getDay (n + 1) ≠ 0 ∧ getDay (n + 1) ≠ 6
    · rw [if_pos ((weekday_loop_iff_iso (n + 1)).mp hw), if_pos hw,
        Finset.card_insert_of_not_mem hnot]
    · rw [if_neg (fun hc => hw ((weekday_loop_iff_iso (n + 1)).mpr hc)), if_neg hw,
        Nat.add_zero]

/-- Witness for C3 at the concrete range March 2024 (21 weekdays). -/
theorem countWeekdays_counts_iso_weekdays_witness :
    countWeekdays (dayNumber 2024 3 1) (dayNumber 2024 3 31) =
      ((Finset.Icc (dayNumber 2024 3 1) (dayNumber 2024 3 31)).filter
        (fun d => 1 ≤ isoWeekday d ∧ isoWeekday d ≤ 5)).card :=
  countWeekdays_counts_iso_weekdays (dayNumber 2024 3 1) (dayNumber 2024 3 31)
    (by decide)

/-- Counting a sick/vacation status over the monthly query's rows equals
the count of that status over all the employee's stored rows in the month. -/
theorem monthlyQueryRows_countP (attendance : List AttendanceRecord)
    (eid y m : ℕ) (st : AttendanceStatus)
    (hst : st = .sick ∨ st = .vacation) :
    (monthlyQueryRows attendance eid y m).countP (fun r => decide (r.status = st)) =
      monthlyStatusCount attendance eid y m st := by
  unfold monthlyQueryRows monthlyStatusCount
  rw [List.countP_filter, ← List.countP_eq_length_filter]
  apply List.countP_congr
  intro r _
  simp only [Bool.and_eq_true, decide_eq_true_eq]
  constructor
  · rintro ⟨hs, h1, h2, h3, _⟩
    exact ⟨h1, h2, h3, hs⟩
  · rintro ⟨h1, h2, h3, hs⟩
    refine ⟨hs, h1, h2, h3, ?_⟩
    rcases hst with h | h <;> subst h
    · exact Or.inl hs
    · exact Or.inr hs

/-- Counting a sick/vacation status over the yearly query's rows equals
the count of that status over all the employee's stored rows in the year. -/
theorem yearlyQueryRows_countP (attendance : List AttendanceRecord)
    (eid y : ℕ) (st : AttendanceStatus)
    (hst : st = .sick ∨ st = .vacation) :
    (yearlyQueryRows attendance eid y).countP (fun r => decide (r.status = st)) =
      yearlyStatusCount attendance eid y st := by
  unfold yearlyQueryRows yearlyStatusCount
  rw [List.countP_filter, ← List.countP_eq_length_filter]
  apply List.countP_congr
  intro r _
  simp only [Bool.and_eq_true, decide_eq_true_eq]
  constructor
  · rintro ⟨hs, h1, h2, _⟩
    exact ⟨h1, h2, hs⟩
  · rintro ⟨h1, h2, hs⟩
    refine ⟨hs, h1, h2, ?_⟩
    rcases hst with h | h <;> subst h
    · exact Or.inl hs
    · exact Or.inr hs

/-- The monthly smart report on a month that starts after today. -/
theorem smartMonthly_future (eid y m today : ℕ)
    (attendance : List AttendanceRecord) (h : today < monthStartDay y m) :
    getSmartMonthlyAttendanceReport eid y m today attendance =
      { workdays := 0, worked := 0, sick := 0, vacation := 0 } := by
  unfold getSmartMonthlyAttendanceReport
  simp [h]

/-- The monthly smart report on a month that starts on or before today:
weekdays counted from the month start to the end clipped at today, and
`worked` clamped at 0. -/
theorem smartMonthly_past (eid y m today : ℕ)
    (attendance : List AttendanceRecord) (h : ¬ today < monthStartDay y m) :
    getSmartMonthlyAttendanceReport eid y m today attendance =
      { workdays := countWeekdays (monthStartDay y m) (min (monthEndDay y m) today)
        worked := max 0 ((countWeekdays (monthStartDay y m) (min (monthEndDay y m) today) : ℤ) -
          (monthlyQueryRows attendance eid y m).countP (fun r => decide (r.status = .sick)) -
          (monthlyQueryRows attendance eid y m).countP (fun r => decide (r.status = .vacation)))
        sick := (monthlyQueryRows attendance eid y m).countP (fun r => decide (r.status = .sick))
        vacation := (monthlyQueryRows attendance eid y m).countP (fun r => decide (r.status = .vacation)) } := by
  unfold getSmartMonthlyAttendanceReport
  simp [h]

/-- The yearly smart report on a year that starts after today. -/
theorem smartYearly_future (eid y today : ℕ)
    (attendance : List AttendanceRecord) (h : today < yearStartDay y) :
    getSmartYearlyAttendanceReport eid y today attendance =
      { workdays := 0, worked := 0, sick := 0, vacation := 0 } := by
  unfold getSmartYearlyAttendanceReport
  simp [h]

/-- The yearly smart report on a year that starts on or before today. -/
theorem smartYearly_past (eid y today : ℕ)
    (attendance : List AttendanceRecord) (h : ¬ today < yearStartDay y) :
    getSmartYearlyAttendanceReport eid y today attendance =
      { workdays := countWeekdays (yearStartDay y) (min (yearEndDay y) today)
        worked := max 0 ((countWeekdays (yearStartDay y) (min (yearEndDay y) today) : ℤ) -
          (yearlyQueryRows attendance eid y).countP (fun r => decide (r.status = .sick)) -
          (yearlyQueryRows attendance eid y).countP (fun r => decide (r.status = .vacation)))
        sick := (yearlyQueryRows attendance eid y).countP (fun r => decide (r.status = .sick))
        vacation := (yearlyQueryRows attendance eid y).countP (fun r => decide (r.status = .vacation)) } := by
  unfold getSmartYearlyAttendanceReport
  simp [h]

/-- C1: every report returned by the smart attendance computation (monthly
and yearly) satisfies `worked = max(0, workdays - sick - vacation)`, where
sick and vacation count the stored exception records with that status in
the period; consequently `worked ≥ 0` in every reachable report, even when
sick + vacation exceeds workdays. -/
theorem smart_reports_worked_clamped (eid y m today : ℕ)
    (attendance : List AttendanceRecord) :
    ((getSmartMonthlyAttendanceReport eid y m today attendance).worked =
        max 0 ((getSmartMonthlyAttendanceReport eid y m today attendance).workdays -
          (monthlyStatusCount attendance eid y m .sick : ℤ) -
          (monthlyStatusCount attendance eid y m .vacation : ℤ)) ∧
      0 ≤ (getSmartMonthlyAttendanceReport eid y m today attendance).worked) ∧
    ((getSmartYearlyAttendanceReport eid y today attendance).worked =
        max 0 ((getSmartYearlyAttendanceReport eid y today attendance).workdays -
          (yearlyStatusCount attendance eid y .sick : ℤ) -
          (yearlyStatusCount attendance eid y .vacation : ℤ)) ∧
      0 ≤ (getSmartYearlyAttendanceReport eid y today attendance).worked) := by
  constructor
  · by_cases h : today < monthStartDay y m
    · rw [smartMonthly_future eid y m today attendance h]
      have h1 : (0 : ℤ) ≤ (monthlyStatusCount attendance eid y m .sick : ℤ) :=
        Int.natCast_nonneg _
      have h2 : (0 : ℤ) ≤ (monthlyStatusCount attendance eid y m .vacation : ℤ) :=
        Int.natCast_nonneg _
      constructor
      · show (0 : ℤ) = max 0 (0 - _ - _)
        omega
      · exact le_refl 0
    · rw [smartMonthly_past eid y m today attendance h]
      rw [show ((monthlyQueryRows attendance eid y m).countP
            (fun r => decide (r.status = .sick))) =
          monthlyStatusCount attendance eid y m .sick from
          monthlyQueryRows_countP attendance eid y m .sick (Or.inl rfl),
        show ((monthlyQueryRows attendance eid y m).countP
            (fun r => decide (r.status = .vacation))) =
          monthlyStatusCount attendance eid y m .vacation from
          monthlyQueryRows_countP attendance eid y m .vacation (Or.inr rfl)]
      exact ⟨rfl, le_max_left 0 _⟩
  · by_cases h : today < yearStartDay y
    · rw [smartYearly_future eid y today attendance h]
      have h1 : (0 : ℤ) ≤ (yearlyStatusCount attendance eid y .sick : ℤ) :=
        Int.natCast_nonneg _
      have h2 : (0 : ℤ) ≤ (yearlyStatusCount attendance eid y .vacation : ℤ) :=
        Int.natCast_nonneg _
      constructor
      · show (0 : ℤ) = max 0 (0 - _ - _)
        omega
      · exact le_refl 0
    · rw [smartYearly_past eid y today attendance h]
      rw [show ((yearlyQueryRows attendance eid y).countP
            (fun r => decide (r.status = .sick))) =
          yearlyStatusCount attendance eid y .sick from
          yearlyQueryRows_countP attendance eid y .sick (Or.inl rfl),
        show ((yearlyQueryRows attendance eid y).countP
            (fun r => decide (r.status = .vacation))) =
          yearlyStatusCount attendance eid y .vacation from
          yearlyQueryRows_countP attendance eid y .vacation (Or.inr rfl)]
      exact ⟨rfl, le_max_left 0 _⟩

/-- C2: a period (month or year) starting strictly after today yields the
all-zero report; a period starting on or before today has its end clipped
to today before the workdays are counted. -/
theorem smart_reports_future_zero_and_clip (eid y m today : ℕ)
    (attendance : List AttendanceRecord) :
    (today < monthStartDay y m →
      getSmartMonthlyAttendanceReport eid y m today attendance =
        { workdays := 0, worked := 0, sick := 0, vacation := 0 }) ∧
    (monthStartDay y m ≤ today →
      (getSmartMonthlyAttendanceReport eid y m today attendance).workdays =
        countWeekdays (monthStartDay y m) (min (monthEndDay y m) today)) ∧
    (today < yearStartDay y →
      getSmartYearlyAttendanceReport eid y today attendance =
        { workdays := 0, worked := 0, sick := 0, vacation := 0 }) ∧
    (yearStartDay y ≤ today →
      (getSmartYearlyAttendanceReport eid y today attendance).workdays =
        countWeekdays (yearStartDay y) (min (yearEndDay y) today)) := by
  refine ⟨fun h => smartMonthly_future eid y m today attendance h,
    fun h => ?_, fun h => smartYearly_future eid y today attendance h, fun h => ?_⟩
  · rw [smartMonthly_past eid y m today attendance (by omega)]
  · rw [smartYearly_past eid y today attendance (by omega)]

/-- Witness for C2 with today = 2026-10-11: May 2030 and the year 2030 are
entirely in the future; October 2026 and the year 2026 are clipped. -/
theorem smart_reports_future_zero_and_clip_witness :
    (getSmartMonthlyAttendanceReport 1 2030 5 (dayNumber 2026 10 11) [] =
      { workdays := 0, worked := 0, sick := 0, vacation := 0 }) ∧
    ((getSmartMonthlyAttendanceReport 1 2026 10 (dayNumber 2026 10 11) []).workdays =
      countWeekdays (monthStartDay 2026 10) (min (monthEndDay 2026 10) (dayNumber 2026 10 11))) ∧
    (getSmartYearlyAttendanceReport 1 2030 (dayNumber 2026 10 11) [] =
      { workdays := 0, worked := 0, sick := 0, vacation := 0 }) ∧
    ((getSmartYearlyAttendanceReport 1 2026 (dayNumber 2026 10 11) []).workdays =
      countWeekdays (yearStartDay 2026) (min (yearEndDay 2026) (dayNumber 2026 10 11))) :=
  ⟨(smart_reports_future_zero_and_clip 1 2030 5 (dayNumber 2026 10 11) []).1 (by decide),
    (smart_reports_future_zero_and_clip 1 2026 10 (dayNumber 2026 10 11) []).2.1 (by decide),
    (smart_reports_future_zero_and_clip 1 2030 5 (dayNumber 2026 10 11) []).2.2.1 (by decide),
    (smart_reports_future_zero_and_clip 1 2026 10 (dayNumber 2026 10 11) []).2.2.2 (by decide)⟩

/-- C4: `calculateSalaryDeduction` leaves the salary untouched when the
report has no workdays (the division is short-circuited); otherwise it
scales the base salary by `(workdays - sick) / workdays` and reports the
difference as the deduction; the report's vacation count plays no role. -/
theorem calculateSalaryDeduction_spec (baseSalary : ℚ)
    (report : SmartAttendanceReport) :
    (report.workdays = 0 →
      (calculateSalaryDeduction baseSalary report).adjustedSalary = baseSalary ∧
      (calculateSalaryDeduction baseSalary report).deductionAmount = 0) ∧
    (report.workdays ≠ 0 →
      (calculateSalaryDeduction baseSalary report).adjustedSalary =
        baseSalary * ((report.workdays : ℚ) - (report.sick : ℚ)) / (report.workdays : ℚ) ∧
      (calculateSalaryDeduction baseSalary report).deductionAmount =
        baseSalary - (calculateSalaryDeduction baseSalary report).adjustedSalary) ∧
    (∀ v : ℤ, calculateSalaryDeduction baseSalary { report with vacation := v } =
      calculateSalaryDeduction baseSalary report) := by
  refine ⟨fun h => ?_, fun h => ?_, fun v => ?_⟩
  · rw [calculateSalaryDeduction, if_pos h]
    exact ⟨rfl, rfl⟩
  · rw [calculateSalaryDeduction, if_neg h]
    constructor
    · show baseSalary * (((report.workdays : ℚ) - (report.sick : ℚ)) / (report.workdays : ℚ)) = _
      ring
    · rfl
  · rfl

/-- Witness for C4 on both branches: a zero-workdays report keeps the
salary, and the 20-workday/5-sick report gives 4000 · 15/20 = 3000. -/
theorem calculateSalaryDeduction_spec_witness :
    ((calculateSalaryDeduction 4000 ⟨0, 0, 3, 1⟩).adjustedSalary = 4000 ∧
      (calculateSalaryDeduction 4000 ⟨0, 0, 3, 1⟩).deductionAmount = 0) ∧
    ((calculateSalaryDeduction 4000 ⟨20, 15, 5, 0⟩).adjustedSalary =
        4000 * ((20 : ℚ) - (5 : ℚ)) / (20 : ℚ) ∧
      (calculateSalaryDeduction 4000 ⟨20, 15, 5, 0⟩).deductionAmount =
        4000 - (calculateSalaryDeduction 4000 ⟨20, 15, 5, 0⟩).adjustedSalary) :=
  ⟨(calculateSalaryDeduction_spec 4000 ⟨0, 0, 3, 1⟩).1 rfl,
    (calculateSalaryDeduction_spec 4000 ⟨20, 15, 5, 0⟩).2.1 (by decide)⟩

/-- C10: with positive base salary, positive workdays and more sick days
than workdays, the adjusted salary goes strictly negative and the
deduction exceeds the base salary — no clamping at 0, unlike the smart
report's `worked`; and such reports are reachable from the smart monthly
computation. -/
theorem salary_deduction_unclamped :
    (∀ (baseSalary : ℚ) (report : SmartAttendanceReport),
        0 < baseSalary → 0 < report.workdays → report.workdays < report.sick →
          (calculateSalaryDeduction baseSalary report).adjustedSalary < 0 ∧
          baseSalary < (calculateSalaryDeduction baseSalary report).deductionAmount) ∧
    (∃ (eid y m today : ℕ) (attendance : List AttendanceRecord),
        0 < (getSmartMonthlyAttendanceReport eid y m today attendance).workdays ∧
        (getSmartMonthlyAttendanceReport eid y m today attendance).workdays <
          (getSmartMonthlyAttendanceReport eid y m today attendance).sick) := by
  constructor
  · intro baseSalary report hb hw hs
    have hw0 : (report.workdays : ℚ) ≠ 0 := by
      exact_mod_cast (by omega : report.workdays ≠ 0)
    have hwpos : (0 : ℚ) < (report.workdays : ℚ) := by exact_mod_cast hw
    have hneg : ((report.workdays : ℚ) - (report.sick : ℚ)) < 0 := by
      have : (report.workdays : ℚ) < (report.sick : ℚ) := by exact_mod_cast hs
      linarith
    have hadj : (calculateSalaryDeduction baseSalary report).adjustedSalary =
        baseSalary * (((report.workdays : ℚ) - (report.sick : ℚ)) / (report.workdays : ℚ)) := by
      rw [calculateSalaryDeduction, if_neg (by omega : ¬ report.workdays = 0)]
    have hded : (calculateSalaryDeduction baseSalary report).deductionAmount =
        baseSalary - (calculateSalaryDeduction baseSalary report).adjustedSalary := by
      rw [calculateSalaryDeduction, if_neg (by omega : ¬ report.workdays = 0)]
    have hlt : (calculateSalaryDeduction baseSalary report).adjustedSalary < 0 := by
      rw [hadj]
      apply mul_neg_of_pos_of_neg hb
      exact div_neg_of_neg_of_pos hneg hwpos
    exact ⟨hlt, by rw [hded]; linarith⟩
  · refine ⟨1, 2024, 3, dayNumber 2024 3 31,
      (List.range 22).map (fun i => ⟨1, ⟨2024, 3, i + 1⟩, .sick⟩), ?_⟩
    decide

/-- Witness for C10: base salary 3000, 20 workdays, 25 sick days. -/
theorem salary_deduction_unclamped_witness :
    (calculateSalaryDeduction 3000 ⟨20, 0, 25, 0⟩).adjustedSalary < 0 ∧
    3000 < (calculateSalaryDeduction 3000 ⟨20, 0, 25, 0⟩).deductionAmount :=
  salary_deduction_unclamped.1 3000 ⟨20, 0, 25, 0⟩ (by norm_num) (by decide) (by decide)

/-- Folding `getMonthTotalStep` from any accumulator adds the converted
amounts of exactly the included costs. -/
theorem getMonthTotal_foldl (costs : List Cost) (displayCurrency : Currency)
    (rates : List CurrencyRate) (ty tm : ℕ) (a : ℚ) :
    costs.foldl (getMonthTotalStep displayCurrency rates ty tm) a =
      a + ((costs.filter (fun c => decide (costIncludedInMonth ty tm c))).map
        (fun c => convertCurrencyQ c.amount c.currency displayCurrency rates)).sum := by
  induction costs generalizing a with
  | nil => simp
  | cons c cs ih =>
    rw [List.foldl_cons, ih]
    by_cases hr : c.is_recurring
    · by_cases hc : c.is_active ∧ c.year * 12 + c.month ≤ ty * 12 + tm
      · have hinc : costIncludedInMonth ty tm c := by
          unfold costIncludedInMonth
          rw [if_pos hr]
          exact ⟨hc.1, hc.2⟩
        rw [show getMonthTotalStep displayCurrency rates ty tm a c =
            a + convertCurrencyQ c.amount c.currency displayCurrency rates by
          unfold getMonthTotalStep
          rw [if_pos hr, if_pos hc]]
        simp [List.filter_cons, hinc]
        ring
      · have hninc : ¬ costIncludedInMonth ty tm c := by
          unfold costIncludedInMonth
          rw [if_pos hr]
          intro hx
          exact hc ⟨hx.1, hx.2⟩
        rw [show getMonthTotalStep displayCurrency rates ty tm a c = a by
          unfold getMonthTotalStep
          rw [if_pos hr, if_neg hc]]
        simp [List.filter_cons, hninc]
    · by_cases hc : c.year = ty ∧ c.month = tm
      · have hinc : costIncludedInMonth ty tm c := by
          unfold costIncludedInMonth
          rw [if_neg hr]
          exact hc
        rw [show getMonthTotalStep displayCurrency rates ty tm a c =
            a + convertCurrencyQ c.amount c.currency displayCurrency rates by
          unfold getMonthTotalStep
          rw [if_neg hr, if_pos hc]]
        simp [List.filter_cons, hinc]
        ring
      · have hninc : ¬ costIncludedInMonth ty tm c := by
          unfold costIncludedInMonth
          rw [if_neg hr]
          exact hc
        rw [show getMonthTotalStep displayCurrency rates ty tm a c = a by
          unfold getMonthTotalStep
          rw [if_neg hr, if_neg hc]]
        simp [List.filter_cons, hninc]

/-- C6: the cost total for a target month sums the converted amounts of
exactly the costs included for that month — one-time costs matching the
month exactly, recurring costs that are active and started no later. -/
theorem getMonthTotal_includes_exactly (costs : List Cost)
    (displayCurrency : Currency) (rates : List CurrencyRate) (ty tm : ℕ) :
    getMonthTotal costs displayCurrency rates ty tm =
      ((costs.filter (fun c => decide (costIncludedInMonth ty tm c))).map
        (fun c => convertCurrencyQ c.amount c.currency displayCurrency rates)).sum := by
  unfold getMonthTotal
  rw [getMonthTotal_foldl]
  ring

/-- Counterexample to C7: with distinct currencies and a non-empty rate
list, a non-finite amount (Infinity) is NOT mapped to 0 — the source only
tests `isNaN`, which is false for Infinity, so the amount falls through
the lookup chain and is returned as is. -/
theorem convertCurrency_infinity_counterexample :
    Currency.SEK ≠ Currency.IDR ∧
    ([({ from_curr := .USD, to_curr := .IDR, rate := 1 } : CurrencyRate)] : List CurrencyRate) ≠ [] ∧
    JSNum.posInf.isNaN = false ∧
    convertCurrency .posInf .SEK .IDR
        [{ from_curr := .USD, to_curr := .IDR, rate := 1 }] = .posInf ∧
    convertCurrency .posInf .SEK .IDR
        [{ from_curr := .USD, to_curr := .IDR, rate := 1 }] ≠ .fin 0 := by
  refine ⟨by decide, by decide, rfl, rfl, by decide⟩

/-- C7 (amended): with `from ≠ to`, an empty rate list returns the amount
unchanged, and with a non-empty rate list a NaN amount returns 0. -/
theorem convertCurrency_empty_and_nan (amount : JSNum) (src dst : Currency)
    (rates : List CurrencyRate) (hne : src ≠ dst) :
    (rates = [] → convertCurrency amount src dst rates = amount) ∧
    (rates ≠ [] → amount = .nan → convertCurrency amount src dst rates = .fin 0) := by
  constructor
  · intro h
    subst h
    rw [convertCurrency, if_neg hne]
    rfl
  · intro h hn
    subst hn
    rw [convertCurrency, if_neg hne, if_neg (by simpa [List.isEmpty_iff] using h)]
    rfl

/-- Witness for C7 (amended): SEK→IDR with an empty list keeps 5; NaN with
a non-empty list becomes 0. -/
theorem convertCurrency_empty_and_nan_witness :
    convertCurrency (.fin 5) .SEK .IDR [] = .fin 5 ∧
    convertCurrency .nan .SEK .IDR
      [{ from_curr := .USD, to_curr := .IDR, rate := 1 }] = .fin 0 :=
  ⟨(convertCurrency_empty_and_nan (.fin 5) .SEK .IDR [] (by decide)).1 rfl,
    (convertCurrency_empty_and_nan .nan .SEK .IDR
      [{ from_curr := .USD, to_curr := .IDR, rate := 1 }] (by decide)).2
      (by decide) rfl⟩

/-- C8: with a finite amount, distinct currencies and a non-empty rate
list holding no direct rate but a first (from→USD) entry `r1` and a first
(USD→to) entry `r2`, the conversion returns amount · r1 · r2. -/
theorem convertCurrency_usd_pivot (q : ℚ) (src dst : Currency)
    (rates : List CurrencyRate) (r1 r2 : CurrencyRate)
    (hne : src ≠ dst) (hnil : rates ≠ [])
    (hdirect : rates.find? (fun r => decide (r.from_curr = src ∧ r.to_curr = dst)) = none)
    (h1 : rates.find? (fun r => decide (r.from_curr = src ∧ r.to_curr = Currency.USD)) = some r1)
    (h2 : rates.find? (fun r => decide (r.from_curr = Currency.USD ∧ r.to_curr = dst)) = some r2) :
    convertCurrency (.fin q) src dst rates = .fin (q * r1.rate * r2.rate) := by
  rw [convertCurrency, if_neg hne, if_neg (by simpa [List.isEmpty_iff] using hnil)]
  rw [show (JSNum.fin q).isNaN = false from rfl]
  simp only [Bool.false_eq_true, if_false]
  rw [hdirect, h1, h2]
  rfl

/-- Witness for C8: 100 IDR→SEK through USD with rates 2 and 3 gives 600. -/
theorem convertCurrency_usd_pivot_witness :
    convertCurrency (.fin 100) .IDR .SEK
        [{ from_curr := .IDR, to_curr := .USD, rate := 2 },
         { from_curr := .USD, to_curr := .SEK, rate := 3 }] =
      .fin (100 * (2 : ℚ) * (3 : ℚ)) :=
  convertCurrency_usd_pivot 100 .IDR .SEK
    [{ from_curr := .IDR, to_curr := .USD, rate := 2 },
     { from_curr := .USD, to_curr := .SEK, rate := 3 }]
    { from_curr := .IDR, to_curr := .USD, rate := 2 }
    { from_curr := .USD, to_curr := .SEK, rate := 3 }
    (by decide) (by decide) (by decide) (by decide) (by decide)

/-- C9: with a finite amount, distinct currencies and a non-empty rate
list holding no direct rate and missing at least one leg of the USD pivot,
the conversion returns the original amount (and, being a total function,
never throws). -/
theorem convertCurrency_no_route (q : ℚ) (src dst : Currency)
    (rates : List CurrencyRate)
    (hne : src ≠ dst) (hnil : rates ≠ [])
    (hdirect : rates.find? (fun r => decide (r.from_curr = src ∧ r.to_curr = dst)) = none)
    (hlegs : rates.find? (fun r => decide (r.from_curr = src ∧ r.to_curr = Currency.USD)) = none ∨
      rates.find? (fun r => decide (r.from_curr = Currency.USD ∧ r.to_curr = dst)) = none) :
    convertCurrency (.fin q) src dst rates = .fin q := by
  rw [convertCurrency, if_neg hne, if_neg (by simpa [List.isEmpty_iff] using hnil)]
  rw [show (JSNum.fin q).isNaN = false from rfl]
  simp only [Bool.false_eq_true, if_false]
  rw [hdirect]
  rcases hlegs with h | h
  · rw [h]
  · rw [h]
    rcases hf : rates.find? (fun r => decide (r.from_curr = src ∧ r.to_curr = Currency.USD)) with _ | r <;>
      rw [hf]

/-- Witness for C9: SEK→IDR with only a USD→IDR rate stays 7. -/
theorem convertCurrency_no_route_witness :
    convertCurrency (.fin 7) .SEK .IDR
        [{ from_curr := .USD, to_curr := .IDR, rate := 2 }] = .fin 7 :=
  convertCurrency_no_route 7 .SEK .IDR
    [{ from_curr := .USD, to_curr := .IDR, rate := 2 }]
    (by decide) (by decide) (by decide) (Or.inl (by decide))

/-- Folding `salaryTotalsStep` from any accumulator: the adjusted-salary
component accumulates, per employee, the adjusted salary from the
employee's report, or the full converted base salary when no report is
available. -/
theorem salaryTotals_foldl_adjusted (validEmployees : List Employee)
    (reports : ℕ → Option SmartAttendanceReport) (displayCurrency : Currency)
    (rates : List CurrencyRate) (a : ℚ × ℚ × ℤ) :
    (validEmployees.foldl (salaryTotalsStep displayCurrency rates reports) a).2.1 =
      a.2.1 + (validEmployees.map (fun e =>
        match reports e.id with
        | some report => (calculateSalaryDeduction
            (convertCurrencyQ e.salary e.currency displayCurrency rates) report).adjustedSalary
        | none => convertCurrencyQ e.salary e.currency displayCurrency rates)).sum := by
  induction validEmployees generalizing a with
  | nil => simp
  | cons e es ih =>
    rw [List.foldl_cons, ih]
    rcases hr : reports e.id with _ | rep <;>
      simp only [salaryTotalsStep, hr, List.map_cons, List.sum_cons] <;>
      ring

/-- Counterexample to C5: with no employees, no income and a single
one-time cost of 5 USD dated April 2024, the net reported for April 2024
is 0, not income minus (salaries + cost total) = −5: the cost total is
not part of the net computed in src/src/components/ReportSummary.tsx. -/
theorem netAmount_ignores_costs_counterexample :
    getMonthTotal [{ year := 2024, month := 4, amount := 5, currency := .USD,
                     is_recurring := false, is_active := true }] .USD [] 2024 4 = 5 ∧
    netAmount none [] (fun _ => none) [] [] [] 2024 4 .USD [] = 0 ∧
    netAmount none [] (fun _ => none) [] [] [] 2024 4 .USD [] ≠
      (incomeForPeriod [] [] [] 2024 4 .USD []).total -
        ((salaryTotals none [] (fun _ => none) .USD []).totalAdjusted +
          getMonthTotal [{ year := 2024, month := 4, amount := 5, currency := .USD,
                           is_recurring := false, is_active := true }] .USD [] 2024 4) := by
  have hcost : getMonthTotal [{ year := 2024, month := 4, amount := 5, currency := .USD,
                                is_recurring := false, is_active := true }] .USD [] 2024 4 = 5 := by
    norm_num [getMonthTotal, getMonthTotalStep, convertCurrencyQ, convertCurrency,
      JSNum.finValue]
  have hnet : netAmount none [] (fun _ => none) [] [] [] 2024 4 .USD [] = 0 := by
    norm_num [netAmount, incomeForPeriod, salaryTotals]
  have hinc : (incomeForPeriod [] [] [] 2024 4 .USD []).total = 0 := by
    norm_num [incomeForPeriod]
  have hsal : (salaryTotals none [] (fun _ => none) .USD []).totalAdjusted = 0 := by
    norm_num [salaryTotals]
  refine ⟨hcost, hnet, ?_⟩
  rw [hnet, hcost, hinc, hsal]
  norm_num

/-- C5 (amended): in the all-employees view, the reported net equals the
period's total income minus the sum over employees of the adjusted salary
from that employee's report (or the full converted base salary when no
report is available); cost entries are not part of this net. -/
theorem netAmount_income_minus_salaries (validEmployees : List Employee)
    (reports : ℕ → Option SmartAttendanceReport)
    (contracts : List ConsultantContract) (adRevenue : List AdRevenue)
    (iapRevenue : List IapRevenue) (selectedYear selectedMonth : ℕ)
    (displayCurrency : Currency) (rates : List CurrencyRate) :
    netAmount none validEmployees reports contracts adRevenue iapRevenue
        selectedYear selectedMonth displayCurrency rates =
      (incomeForPeriod contracts adRevenue iapRevenue selectedYear selectedMonth
          displayCurrency rates).total -
        (validEmployees.map (fun e =>
          match reports e.id with
          | some report => (calculateSalaryDeduction
              (convertCurrencyQ e.salary e.currency displayCurrency rates) report).adjustedSalary
          | none => convertCurrencyQ e.salary e.currency displayCurrency rates)).sum := by
  show (incomeForPeriod contracts adRevenue iapRevenue selectedYear selectedMonth
      displayCurrency rates).total -
    (List.foldl (salaryTotalsStep displayCurrency rates reports)
      (0, 0, 0) validEmployees).2.1 = _
  rw [salaryTotals_foldl_adjusted validEmployees reports displayCurrency rates (0, 0, 0),
    zero_add]
